import Mathlib

/-!
Verification of the task-dispatch and sandboxed-execution core of the
solve server: a shallow embedding of the query builder, the object and
event store, the task queue, the file manager, the sandbox report
decoding, the row model and the single-flight cache manager, together
with theorems settling the specified properties.
-/

namespace SolveSpec

/-- Dynamically typed column value, mirroring solve-db Value.
The Double payload is kept as an opaque bit pattern, never interpreted. -/
inductive Value where
  | null
  | bool (b : Bool)
  | bigInt (i : Int)
  | double (bits : Nat)
  | text (s : String)
  | blob (bytes : List Nat)
deriving DecidableEq, Repr

/-- Outcome of a fallible Rust call: Ok, an Err returned to the caller,
or a panic raised by a failed assertion. -/
inductive Outcome (α : Type) where
  | ok (val : α)
  | err (msg : String)
  | panicked (msg : String)
deriving DecidableEq, Repr

def Outcome.bind {α β : Type} : Outcome α → (α → Outcome β) → Outcome β
  | .ok v, f => f v
  | .err e, _ => .err e
  | .panicked e, _ => .panicked e

def Outcome.isErr {α : Type} : Outcome α → Bool
  | .err _ => true
  | _ => false

/-! ## Query builder (src/db/builder, lib/solve-db QueryBuilder)

The concrete dialect builder WrapQueryBuilder (shared by the sqlite and
postgres drivers) appends text to a query string and collects bound
values, emitting positional placeholders numbered from 1.  The source
push_name asserts that names hold no quote or backslash characters; the
names used throughout this development satisfy that, so the embedding
keeps the quoting and drops the assertion. -/

/-- State of WrapQueryBuilder: accumulated SQL text plus bound values. -/
structure QB where
  query : String
  values : List Value
deriving DecidableEq, Repr

def QB.empty : QB := { query := "", values := [] }

def QB.pushStr (b : QB) (part : String) : QB :=
  { b with query := b.query ++ part }

def QB.pushName (b : QB) (name : String) : QB :=
  { b with query := b.query ++ "\"" ++ name ++ "\"" }

def QB.pushValue (b : QB) (v : Value) : QB :=
  { query := b.query ++ "$" ++ toString (b.values.length + 1),
    values := b.values ++ [v] }

/-- SQL expression: a bound value, a column reference or raw text. -/
inductive Expression where
  | value (v : Value)
  | column (name : String)
  | raw (sql : String)
deriving DecidableEq, Repr

/-- Predicate tree built by the fluent query builder. -/
inductive Predicate where
  | bool (b : Bool)
  | and (l r : Predicate)
  | or (l r : Predicate)
  | equal (l r : Expression)
  | notEqual (l r : Expression)
  | less (l r : Expression)
  | lessEqual (l r : Expression)
  | greater (l r : Expression)
  | greaterEqual (l r : Expression)
  | isNull (e : Expression)
  | isNotNull (e : Expression)
deriving DecidableEq, Repr

/-- Expression::equal: comparison against the Null value rewrites to an
IS NULL test, any other right-hand side builds an ordinary equality. -/
def Expression.equal (l : Expression) (r : Expression) : Predicate :=
  match r with
  | .value .null => .isNull l
  | v => .equal l v

/-- Expression::not_equal: comparison against the Null value rewrites to
an IS NOT NULL test. -/
def Expression.notEqual (l : Expression) (r : Expression) : Predicate :=
  match r with
  | .value .null => .isNotNull l
  | v => .notEqual l v

def Expression.writeTo (e : Expression) (b : QB) : QB :=
  match e with
  | .value v => b.pushValue v
  | .column v => b.pushName v
  | .raw v => b.pushStr v

/-- True when the predicate heads match the same discriminant used for
parenthesisation (only And and Or are ever compared). -/
def Predicate.isAnd : Predicate → Bool
  | .and _ _ => true
  | _ => false

def Predicate.isOr : Predicate → Bool
  | .or _ _ => true
  | _ => false

/-- Predicate::push_into, with BinaryPredicate::write_to inlined: a
child of an And or Or node is parenthesised exactly when it is itself an
And or Or node with a different head. -/
def Predicate.pushInto : Predicate → QB → QB
  | .bool v, b => b.pushStr (if v then "true" else "false")
  | .and l r, b =>
    let wl := l.isOr
    let b := if wl then ((Predicate.pushInto l (b.pushStr "(")).pushStr ")")
      else Predicate.pushInto l b
    let b := b.pushStr " AND "
    let wr := r.isOr
    if wr then ((Predicate.pushInto r (b.pushStr "(")).pushStr ")")
    else Predicate.pushInto r b
  | .or l r, b =>
    let wl := l.isAnd
    let b := if wl then ((Predicate.pushInto l (b.pushStr "(")).pushStr ")")
      else Predicate.pushInto l b
    let b := b.pushStr " OR "
    let wr := r.isAnd
    if wr then ((Predicate.pushInto r (b.pushStr "(")).pushStr ")")
    else Predicate.pushInto r b
  | .equal l r, b => (l.writeTo b |>.pushStr " = ") |> r.writeTo
  | .notEqual l r, b => (l.writeTo b |>.pushStr " <> ") |> r.writeTo
  | .less l r, b => (l.writeTo b |>.pushStr " < ") |> r.writeTo
  | .lessEqual l r, b => (l.writeTo b |>.pushStr " <= ") |> r.writeTo
  | .greater l r, b => (l.writeTo b |>.pushStr " > ") |> r.writeTo
  | .greaterEqual l r, b => (l.writeTo b |>.pushStr " >= ") |> r.writeTo
  | .isNull e, b => (e.writeTo b).pushStr " IS NULL"
  | .isNotNull e, b => (e.writeTo b).pushStr " IS NOT NULL"

/-- Pushes a comma separated list of quoted names. -/
def QB.pushNames (b : QB) : List String → QB
  | [] => b
  | c :: rest => rest.foldl (fun b n => (b.pushStr ", ").pushName n) (b.pushName c)

/-- Select builder fields; limit 0 means no LIMIT clause. -/
structure Select where
  table : String
  columns : List String
  predicate : Predicate
  orderBy : List String
  limit : Nat
deriving Repr

def Select.new : Select :=
  { table := "", columns := [], predicate := .bool false, orderBy := [], limit := 0 }

def Select.withTable (s : Select) (t : String) : Select := { s with table := t }

def Select.withColumns (s : Select) (c : List String) : Select := { s with columns := c }

def Select.withWhere (s : Select) (p : Predicate) : Select := { s with predicate := p }

def Select.withOrderBy (s : Select) (c : List String) : Select := { s with orderBy := c }

def Select.withLimit (s : Select) (l : Nat) : Select := { s with limit := l }

/-- Select::into_query.  The source asserts nonempty columns; the
embedding emits the same text for the degenerate case instead. -/
def Select.intoQuery (s : Select) (b : QB) : QB :=
  let b := b.pushStr "SELECT "
  let b := b.pushNames s.columns
  let b := b.pushStr " FROM "
  let b := b.pushName s.table
  let b := b.pushStr " WHERE "
  let b := s.predicate.pushInto b
  let b := if s.orderBy.isEmpty then b
    else (b.pushStr " ORDER BY ").pushNames s.orderBy
  if s.limit > 0 then (b.pushStr " LIMIT ").pushStr (toString s.limit) else b

/-- Rendering of a quoted identifier. -/
def quoteName (n : String) : String := "\"" ++ n ++ "\""

/-- Text produced for the tail of a comma separated name list. -/
def renderNamesRest : List String → String
  | [] => ""
  | n :: rest => ", " ++ quoteName n ++ renderNamesRest rest

/-- Text produced for a comma separated name list. -/
def renderNames : List String → String
  | [] => ""
  | c :: rest => quoteName c ++ renderNamesRest rest

/-- The SELECT query emitted by PersistentStore::find: the store
overwrites the table, the columns and the ordering of the caller
supplied Select, forcing ORDER BY on the primary key column. -/
def storeFindQuery (table : String) (columns : List String) (s : Select) : QB :=
  (((s.withTable table).withColumns columns).withOrderBy ["id"]).intoQuery QB.empty

/-! ## SQL predicate evaluation

The drivers hand predicates to a real SQL engine; the store model below
interprets them directly over rows, with the usual three valued logic:
a comparison with a NULL operand is unknown, and a row is selected
exactly when the predicate evaluates to true. -/

/-- Three valued SQL truth value. -/
inductive TV where
  | t
  | f
  | unknown
deriving DecidableEq, Repr

def TV.andTV : TV → TV → TV
  | .f, _ => .f
  | _, .f => .f
  | .t, .t => .t
  | _, _ => .unknown

def TV.orTV : TV → TV → TV
  | .t, _ => .t
  | _, .t => .t
  | .f, .f => .f
  | _, _ => .unknown

/-- Equality of two SQL values; NULL operands give unknown, kind
mismatches (never exercised here) also give unknown. -/
def Value.eqTV : Value → Value → TV
  | .null, _ => .unknown
  | _, .null => .unknown
  | .bool a, .bool b => if a = b then .t else .f
  | .bigInt a, .bigInt b => if a = b then .t else .f
  | .text a, .text b => if a = b then .t else .f
  | .blob a, .blob b => if a = b then .t else .f
  | _, _ => .unknown

/-- Integer ordering comparison; anything else is unknown. -/
def Value.ltTV : Value → Value → TV
  | .bigInt a, .bigInt b => if a < b then .t else .f
  | _, _ => .unknown

def TV.notTV : TV → TV
  | .t => .f
  | .f => .t
  | .unknown => .unknown

/-- A row valuation: column name to value. -/
def RowVal : Type := String → Option Value

/-- Evaluates an expression against a row; raw SQL fragments and
unknown columns have no value. -/
def Expression.eval (e : Expression) (row : RowVal) : Option Value :=
  match e with
  | .value v => some v
  | .column c => row c
  | .raw _ => none

def evalCmp (f : Value → Value → TV) (l r : Expression) (row : RowVal) : TV :=
  match l.eval row, r.eval row with
  | some a, some b => f a b
  | _, _ => .unknown

/-- Evaluates a predicate against a row. -/
def Predicate.eval (p : Predicate) (row : RowVal) : TV :=
  match p with
  | .bool v => if v then .t else .f
  | .and l r => (l.eval row).andTV (r.eval row)
  | .or l r => (l.eval row).orTV (r.eval row)
  | .equal l r => evalCmp Value.eqTV l r row
  | .notEqual l r => (evalCmp Value.eqTV l r row).notTV
  | .less l r => evalCmp Value.ltTV l r row
  | .lessEqual l r => (evalCmp Value.ltTV r l row).notTV
  | .greater l r => evalCmp Value.ltTV r l row
  | .greaterEqual l r => (evalCmp Value.ltTV l r row).notTV
  | .isNull e =>
    match e.eval row with
    | some .null => .t
    | some _ => .f
    | none => .unknown
  | .isNotNull e =>
    match e.eval row with
    | some .null => .f
    | some _ => .t
    | none => .unknown

def rowLookup (row : List (String × Value)) : RowVal :=
  fun c => (row.find? (fun p => p.1 == c)).map (fun p => p.2)

/-! ## Object and event store (src/models/persistent_store.rs)

PersistentStore is generic over the object type through the Object
trait; the embedding passes the trait methods explicitly.  Event rows
also carry a commit timestamp and an actor id, which no claim touches,
so event records keep only the assigned id, the kind and the object.
All operations below run inside the single write transaction that the
store opens or joins; an Outcome other than ok corresponds to the
transaction rolling back, so no new state is produced. -/

/-- Mirror of EventKind with the Unknown forward compatibility arm. -/
inductive EventKind where
  | create
  | delete
  | update
  | unknownKind (v : Int)
deriving DecidableEq, Repr

/-- Object trait methods used by the store. -/
structure ObjectType (α : Type) where
  getId : α → Int
  setId : α → Int → α
  isValid : α → Bool
  toRow : α → List (String × Value)

/-- An event row: assigned event id, kind, and the carried object. -/
structure EventRec (α : Type) where
  id : Int
  kind : EventKind
  object : α
deriving DecidableEq, Repr

/-- Table plus event log with the database assigned id sequences. -/
structure StoreState (α : Type) where
  rows : List α
  nextId : Int
  events : List (EventRec α)
  nextEventId : Int
deriving DecidableEq, Repr

/-- A row matches when the predicate evaluates to true on it. -/
def matchesRow {α : Type} (T : ObjectType α) (p : Predicate) (r : α) : Bool :=
  p.eval (rowLookup (T.toRow r)) == TV.t

/-- PersistentStore::create_object: asserts validity, inserts the row
with the id column dropped so the database assigns the next id, and
reads the persisted object back through RETURNING. -/
def createObject {α : Type} (T : ObjectType α) (s : StoreState α) (o : α) :
    Outcome (α × StoreState α) :=
  if !T.isValid o then .panicked "assertion failed: object.is_valid()"
  else
    let persisted := T.setId o s.nextId
    .ok (persisted,
      { s with rows := s.rows ++ [persisted], nextId := s.nextId + 1 })

/-- PersistentStore::create_event: refuses Unknown kinds by assertion,
inserts the event row and reads it back through RETURNING. -/
def createEvent {α : Type} (s : StoreState α) (kind : EventKind) (o : α) :
    Outcome (EventRec α × StoreState α) :=
  match kind with
  | .unknownKind _ => .panicked "assertion failed: event kind is unknown"
  | _ =>
    let ev : EventRec α := { id := s.nextEventId, kind := kind, object := o }
    .ok (ev, { s with events := s.events ++ [ev], nextEventId := s.nextEventId + 1 })

/-- PersistentStore::update_object: asserts validity, conjoins the
primary key guard onto the optional predicate, updates every matching
row by writing all non id columns from the given object, and takes the
first RETURNING row; an empty result is the zero rows affected error. -/
def updateObject {α : Type} (T : ObjectType α) (s : StoreState α) (o : α)
    (predicate : Option Predicate) : Outcome (α × StoreState α) :=
  if !T.isValid o then .panicked "assertion failed: object.is_valid()"
  else
    let guard := (Expression.column "id").equal (.value (.bigInt (T.getId o)))
    let p := match predicate with
      | some v => Predicate.and guard v
      | none => guard
    let newRows := s.rows.map (fun r => if matchesRow T p r then T.setId o (T.getId r) else r)
    let returned := (s.rows.filter (matchesRow T p)).map (fun r => T.setId o (T.getId r))
    match returned with
    | [] => .err "empty query result"
    | r :: _ => .ok (r, { s with rows := newRows })

/-- ObjectStore::create for PersistentStore. -/
def storeCreate {α : Type} (T : ObjectType α) (s : StoreState α) (o : α) :
    Outcome (EventRec α × StoreState α) :=
  (createObject T s o).bind fun (obj, s) => createEvent s .create obj

/-- ObjectStore::update_where for PersistentStore. -/
def storeUpdateWhere {α : Type} (T : ObjectType α) (s : StoreState α) (o : α)
    (predicate : Predicate) : Outcome (EventRec α × StoreState α) :=
  (updateObject T s o (some predicate)).bind fun (obj, s) => createEvent s .update obj

/-- SELECT row retrieval used by ObjectStore::find: filter by the
predicate, order by the given integer key, and apply the limit
(limit 0 means unlimited). -/
def insertSorted {α : Type} (key : α → Int) (x : α) : List α → List α
  | [] => [x]
  | y :: rest => if key x ≤ key y then x :: y :: rest else y :: insertSorted key x rest

def sortByKey {α : Type} (key : α → Int) : List α → List α
  | [] => []
  | x :: rest => insertSorted key x (sortByKey key rest)

def findRows {α : Type} (T : ObjectType α) (s : StoreState α) (p : Predicate)
    (limit : Nat) : List α :=
  let selected := sortByKey T.getId (s.rows.filter (matchesRow T p))
  if limit = 0 then selected else selected.take limit

/-! ## Task model and task queue (src/models/task.rs, src/managers/tasks/mod.rs)

Instants are db timestamps (integer seconds) and durations integer
second counts, matching the Instant column conversion.  JSON payloads
are kept as opaque strings stored in text columns. -/

inductive TaskKind where
  | judgeSolution
  | updateProblemPackage
  | unknownTK (v : Int)
deriving DecidableEq, Repr

/-- Value conversion generated by the Value derive for TaskKind. -/
def TaskKind.toValue : TaskKind → Value
  | .judgeSolution => .bigInt 1
  | .updateProblemPackage => .bigInt 2
  | .unknownTK v => .bigInt v

inductive TaskStatus where
  | queued
  | running
  | succeeded
  | failed
  | unknownTS (v : Int)
deriving DecidableEq, Repr

/-- Value conversion generated by the Value derive for TaskStatus. -/
def TaskStatus.toValue : TaskStatus → Value
  | .queued => .bigInt 0
  | .running => .bigInt 1
  | .succeeded => .bigInt 2
  | .failed => .bigInt 3
  | .unknownTS v => .bigInt v

def optInstantValue : Option Int → Value
  | some v => .bigInt v
  | none => .null

structure Task where
  id : Int
  kind : TaskKind
  config : String
  status : TaskStatus
  state : String
  expireTime : Option Int
deriving DecidableEq, Repr

/-- IntoRow derived on Task: fields in declaration order. -/
def Task.toRow (t : Task) : List (String × Value) :=
  [("id", .bigInt t.id),
   ("kind", t.kind.toValue),
   ("config", .text t.config),
   ("status", t.status.toValue),
   ("state", .text t.state),
   ("expire_time", optInstantValue t.expireTime)]

/-- Task::is_valid rejects unknown kind or status discriminants. -/
def Task.isValid (t : Task) : Bool :=
  (match t.kind with | .unknownTK _ => false | _ => true) &&
  (match t.status with | .unknownTS _ => false | _ => true)

def taskObjectType : ObjectType Task :=
  { getId := Task.id,
    setId := fun t i => { t with id := i },
    isValid := Task.isValid,
    toRow := Task.toRow }

/-- The optimistic fence used by the task queue and the task handle:
guards on the observed kind, status and expire_time, with an absent
expire_time compared through the IS NULL rewrite. -/
def taskFence (old : Task) : Predicate :=
  (((Expression.column "kind").equal (.value old.kind.toValue)).and
    ((Expression.column "status").equal (.value old.status.toValue))).and
    ((Expression.column "expire_time").equal (.value (optInstantValue old.expireTime)))

/-- The candidate loop of take_task: the first selected row whose kind
is not Unknown, skipping Unknown kinds. -/
def firstKnownKind : List Task → Option Task
  | [] => none
  | t :: rest =>
    match t.kind with
    | .unknownTK _ => firstKnownKind rest
    | _ => some t

/-- TaskStore::take_task.  The SELECT runs on the transaction snapshot;
the fenced update runs against the current row state, which a
concurrent worker may have changed after the snapshot was taken, so the
two are separate arguments.  A fence failure surfaces as the zero rows
affected error of update_where, which take_task propagates. -/
def takeTask (snapshot current : StoreState Task) (now lease : Int) :
    Outcome (Option Task × StoreState Task) :=
  let cands := findRows taskObjectType snapshot
    ((Expression.column "status").equal (.value TaskStatus.queued.toValue)) 5
  match firstKnownKind cands with
  | none => .ok (none, current)
  | some task =>
    let newTask := { task with status := TaskStatus.running, expireTime := some (now + lease) }
    (storeUpdateWhere taskObjectType current newTask (taskFence task)).bind
      fun (event, s) => .ok (some event.object, s)

/-! ## Claimed task handle (src/managers/tasks/mod.rs)

The handle keeps two mirrors of the claimed row: the task mirror read
by accessors and the stored mirror used for the fence. -/

structure TaskHandle where
  task : Task
  storedTask : Task
deriving DecidableEq, Repr

/-- Task::is_expired on the stored mirror: no expire_time, or an
expire_time strictly before now, counts as expired. -/
def taskIsExpired (t : Task) (now : Int) : Bool :=
  match t.expireTime with
  | some v => decide (v < now)
  | none => true

/-- Task::update: refuses when the stored mirror is expired, otherwise
issues the fenced update and overwrites the stored mirror with the
persisted object.  The handle and database states are returned
unchanged on failure. -/
def handleUpdate (h : TaskHandle) (db : StoreState Task) (newTask : Task)
    (now : Int) : Outcome Task × (TaskHandle × StoreState Task) :=
  if taskIsExpired h.storedTask now then (.err "task expired", (h, db))
  else
    match storeUpdateWhere taskObjectType db newTask (taskFence h.storedTask) with
    | .ok (event, db) => (.ok event.object, ({ h with storedTask := event.object }, db))
    | .err e => (.err e, (h, db))
    | .panicked e => (.panicked e, (h, db))

/-- Task::set_status. -/
def handleSetStatus (h : TaskHandle) (db : StoreState Task) (status : TaskStatus)
    (now : Int) : Outcome Unit × (TaskHandle × StoreState Task) :=
  match handleUpdate h db { h.task with status := status } now with
  | (.ok t, (h, db)) => (.ok (), ({ h with task := t }, db))
  | (.err e, r) => (.err e, r)
  | (.panicked e, r) => (.panicked e, r)

/-- Task::set_state. -/
def handleSetState (h : TaskHandle) (db : StoreState Task) (state : String)
    (now : Int) : Outcome Unit × (TaskHandle × StoreState Task) :=
  match handleUpdate h db { h.task with state := state } now with
  | (.ok t, (h, db)) => (.ok (), ({ h with task := t }, db))
  | (.err e, r) => (.err e, r)
  | (.panicked e, r) => (.panicked e, r)

/-- Task::ping. -/
def handlePing (h : TaskHandle) (db : StoreState Task) (duration : Int)
    (now : Int) : Outcome Unit × (TaskHandle × StoreState Task) :=
  match handleUpdate h db { h.task with expireTime := some (now + duration) } now with
  | (.ok t, (h, db)) => (.ok (), ({ h with task := t }, db))
  | (.err e, r) => (.err e, r)
  | (.panicked e, r) => (.panicked e, r)

/-! ## File model and file manager (src/models/file.rs, src/managers/files/mod.rs) -/

inductive FileStatus where
  | pending
  | available
  | unknownFS (v : Int)
deriving DecidableEq, Repr

def FileStatus.toValue : FileStatus → Value
  | .pending => .bigInt 0
  | .available => .bigInt 1
  | .unknownFS v => .bigInt v

/-- Modelled from the spec: the FileMeta record is exported from the
models module but its declaration is not among the given sources; the
spec lists its fields as name, size, md5 and sha3_224, all but name
optional, populated by the streaming upload. -/
structure FileMeta where
  name : String
  size : Option Nat
  md5 : Option String
  sha3_224 : Option String
deriving DecidableEq, Repr

def FileMeta.default : FileMeta :=
  { name := "", size := none, md5 := none, sha3_224 := none }

/-- Injective text encoding standing in for the JSON serialisation of
the meta column; only its content as carried data matters here. -/
def FileMeta.encode (m : FileMeta) : String :=
  m.name ++ "|" ++ toString m.size ++ "|" ++ toString m.md5 ++ "|" ++ toString m.sha3_224

structure FileObj where
  id : Int
  status : FileStatus
  expireTime : Option Int
  path : String
  meta : FileMeta
deriving DecidableEq, Repr

def FileObj.toRow (f : FileObj) : List (String × Value) :=
  [("id", .bigInt f.id),
   ("status", f.status.toValue),
   ("expire_time", optInstantValue f.expireTime),
   ("path", .text f.path),
   ("meta", .text f.meta.encode)]

def FileObj.isValid (f : FileObj) : Bool :=
  match f.status with
  | .unknownFS _ => false
  | _ => true

def fileObjectType : ObjectType FileObj :=
  { getId := FileObj.id,
    setId := fun f i => { f with id := i },
    isValid := FileObj.isValid,
    toRow := FileObj.toRow }

/-- Hashes and size produced by FileStorage::upload while streaming. -/
structure UploadResult where
  size : Nat
  md5 : String
  sha3_224 : String
deriving DecidableEq, Repr

/-- The PendingFile handle returned by FileManager::upload: the in
memory model carrying the streamed meta, not yet persisted. -/
structure PendingFileM where
  model : FileObj
deriving DecidableEq, Repr

/-- FileManager::upload.  The storage key and the streaming result are
inputs: generate_key and the storage write are external effects.  The
File row is created in Pending with a sixty second TTL before the blob
is streamed; afterwards the streamed size and digests are written only
into the meta of the in memory model held by the returned PendingFile. -/
def fileUpload (db : StoreState FileObj) (infoName : Option String)
    (infoSize : Option Nat) (key : String) (now : Int) (result : UploadResult) :
    Outcome (PendingFileM × StoreState FileObj) :=
  let meta : FileMeta := { FileMeta.default with name := infoName.getD "", size := infoSize }
  let model : FileObj :=
    { id := 0, status := .pending, expireTime := some (now + 60), path := key, meta := meta }
  (storeCreate fileObjectType db model).bind fun (event, db) =>
    let newMeta : FileMeta :=
      { meta with size := some result.size, md5 := some result.md5,
                  sha3_224 := some result.sha3_224 }
    .ok ({ model := { event.object with meta := newMeta } }, db)

/-- PendingFile::confirm: Pending to Available, clearing expire_time,
fenced on status = Pending. -/
def pendingFileConfirm (pf : PendingFileM) (db : StoreState FileObj) :
    Outcome (FileObj × StoreState FileObj) :=
  let model := { pf.model with status := FileStatus.available, expireTime := none }
  (storeUpdateWhere fileObjectType db model
      ((Expression.column "status").equal (.value FileStatus.pending.toValue))).bind
    fun (event, db) => .ok (event.object, db)

/-! ## Sandbox report decoding (src/invoker/safeexec/process.rs)

Durations are nanosecond counts.  The supervision loop is driven by
wall clock readings and signals; its reap result and the measured
elapsed real time are the inputs of the decode and clamp step. -/

def millisNs : Nat := 1000000

inductive WaitStatus where
  | exited (pid : Int) (code : Int)
  | signaled (pid : Int) (signal : Int) (coreDump : Bool)
  | stillAlive
  | otherStatus (desc : String)
deriving DecidableEq, Repr

structure ProcessConfig where
  timeLimit : Nat
  realTimeLimit : Nat
deriving DecidableEq, Repr

structure Report where
  exitCode : Int
  memory : Nat
  time : Nat
  realTime : Nat
deriving DecidableEq, Repr

/-- The tail of Process::run: decode the reaped status into an exit
code (status code on natural exit, signal number when killed by a
signal, an error otherwise), take cpu time as zero since cgroup cpu
accounting is not read, and clamp both reported times to their limit
plus one millisecond when either limit was exceeded. -/
def processRunReport (status : WaitStatus) (elapsed : Nat) (config : ProcessConfig) :
    Outcome Report :=
  match status with
  | .exited _ code => processRunClamp code elapsed config
  | .signaled _ signal _ => processRunClamp signal elapsed config
  | _ => .err "Unexpected wait status"
where
  processRunClamp (exitCode : Int) (elapsed : Nat) (config : ProcessConfig) : Outcome Report :=
    let time := 0
    let realTime := elapsed
    if time > config.timeLimit || realTime > config.realTimeLimit then
      .ok { exitCode := exitCode, memory := 0,
            time := config.timeLimit + millisNs,
            realTime := config.realTimeLimit + millisNs }
    else
      .ok { exitCode := exitCode, memory := 0, time := time, realTime := realTime }

/-! ## Row model (lib/solve-db/src/row.rs)

ColumnIndex is a name to position map; the hash map is modelled as an
association list where inserting an existing name overwrites it. -/

abbrev ColumnIndex : Type := List (String × Nat)

def ColumnIndex.len (m : ColumnIndex) : Nat := m.length

def ColumnIndex.insertCI (m : ColumnIndex) (k : String) (v : Nat) : ColumnIndex :=
  if m.any (fun p => p.1 == k) then m.map (fun p => if p.1 == k then (k, v) else p)
  else m ++ [(k, v)]

/-- ColumnIndex::new: insert every column with its position. -/
def ColumnIndex.build : List String → Nat → ColumnIndex → ColumnIndex
  | [], _, m => m
  | c :: rest, i, m => ColumnIndex.build rest (i + 1) (m.insertCI c i)

def ColumnIndex.ofColumns (columns : List String) : ColumnIndex :=
  ColumnIndex.build columns 0 []

structure Row where
  columns : ColumnIndex
  values : List Value

/-- The Row invariant stated by the spec: column count equals value
count. -/
def Row.invariant (r : Row) : Prop :=
  r.values.length = r.columns.len

instance : DecidablePred Row.invariant := fun r =>
  inferInstanceAs (Decidable (r.values.length = r.columns.len))

/-- Row::new: asserts that the value count matches the index size. -/
def Row.new (values : List Value) (columns : ColumnIndex) : Outcome Row :=
  if values.length = columns.len then .ok { values := values, columns := columns }
  else .panicked "assertion failed: values.len() == columns.len()"

/-- Row::from_iter: unzip the pairs and build a fresh index. -/
def Row.fromIter (pairs : List (String × Value)) : Row :=
  { values := pairs.map (fun p => p.2),
    columns := ColumnIndex.ofColumns (pairs.map (fun p => p.1)) }

/-! ## Single flight cache manager (lib/solve-cache/src/lib.rs)

Manager::load and Manager::reload are modelled as an interleaving
transition system.  Keys, future identities and thread identities are
natural numbers.  Each client thread advances through the program
points of the source: the lock-free cache probe, the re-checks under
the read lock on the in-flight map, the write-locked entry of reload,
awaiting the shared future, and executing the future body, whose final
step removes the in-flight entry, resolves the future and fills the
cache under the write lock exactly as the source closure does.  The
shared future semantics is that a future in the pending state is
executed by the first awaiter to poll it, exactly once; every other
awaiter sleeps until the future resolves and then receives the shared
result.  A store load for key k is in flight exactly while some thread
sits at the runningLoad program point for k. -/

inductive FutState where
  | noFut
  | pendingFut
  | runningFut
  | doneFut (ok : Bool)
deriving DecidableEq, Repr

inductive ThreadState where
  | idle
  | cacheCheck (k : Nat)
  | readLockHeld (k : Nat)
  | reloadEntry (k : Nat)
  | awaiting (k f : Nat)
  | runningLoad (k f : Nat)
  | finished (ok : Bool)
deriving DecidableEq, Repr

structure MgrState where
  thread : Nat → ThreadState
  futureOf : Nat → Option Nat
  futState : Nat → FutState
  cached : Nat → Bool
  nextFut : Nat

/-- Pointwise function update. -/
def upd {α : Type} (f : Nat → α) (i : Nat) (v : α) : Nat → α :=
  fun j => if j = i then v else f j

def MgrState.init : MgrState :=
  { thread := fun _ => .idle,
    futureOf := fun _ => none,
    futState := fun _ => .noFut,
    cached := fun _ => false,
    nextFut := 0 }

/-- One interleaved step of some client thread, or a cache eviction. -/
inductive MgrStep : MgrState → MgrState → Prop where
  | callLoad (s : MgrState) (i k : Nat) :
      s.thread i = .idle →
      MgrStep s { s with thread := upd s.thread i (.cacheCheck k) }
  | callReload (s : MgrState) (i k : Nat) :
      s.thread i = .idle →
      MgrStep s { s with thread := upd s.thread i (.reloadEntry k) }
  | cacheHitFast (s : MgrState) (i k : Nat) :
      s.thread i = .cacheCheck k → s.cached k = true →
      MgrStep s { s with thread := upd s.thread i (.finished true) }
  | cacheMissFast (s : MgrState) (i k : Nat) :
      s.thread i = .cacheCheck k → s.cached k = false →
      MgrStep s { s with thread := upd s.thread i (.readLockHeld k) }
  | cacheHitLocked (s : MgrState) (i k : Nat) :
      s.thread i = .readLockHeld k → s.cached k = true →
      MgrStep s { s with thread := upd s.thread i (.finished true) }
  | foundFuture (s : MgrState) (i k f : Nat) :
      s.thread i = .readLockHeld k → s.cached k = false → s.futureOf k = some f →
      MgrStep s { s with thread := upd s.thread i (.awaiting k f) }
  | noFuture (s : MgrState) (i k : Nat) :
      s.thread i = .readLockHeld k → s.cached k = false → s.futureOf k = none →
      MgrStep s { s with thread := upd s.thread i (.reloadEntry k) }
  | reloadFound (s : MgrState) (i k f : Nat) :
      s.thread i = .reloadEntry k → s.futureOf k = some f →
      MgrStep s { s with thread := upd s.thread i (.awaiting k f) }
  | reloadCreate (s : MgrState) (i k : Nat) :
      s.thread i = .reloadEntry k → s.futureOf k = none →
      MgrStep s
        { s with
          thread := upd s.thread i (.awaiting k s.nextFut),
          futureOf := upd s.futureOf k (some s.nextFut),
          futState := upd s.futState s.nextFut .pendingFut,
          nextFut := s.nextFut + 1 }
  | startRun (s : MgrState) (i k f : Nat) :
      s.thread i = .awaiting k f → s.futState f = .pendingFut →
      MgrStep s
        { s with
          thread := upd s.thread i (.runningLoad k f),
          futState := upd s.futState f .runningFut }
  | awaitDone (s : MgrState) (i k f : Nat) (r : Bool) :
      s.thread i = .awaiting k f → s.futState f = .doneFut r →
      MgrStep s { s with thread := upd s.thread i (.finished r) }
  | finishRun (s : MgrState) (i k f : Nat) (r : Bool) :
      s.thread i = .runningLoad k f →
      MgrStep s
        { s with
          thread := upd s.thread i (.finished r),
          futureOf := upd s.futureOf k none,
          futState := upd s.futState f (.doneFut r),
          cached := upd s.cached k r }
  | evict (s : MgrState) (k : Nat) :
      MgrStep s { s with cached := upd s.cached k false }
  | retire (s : MgrState) (i : Nat) (r : Bool) :
      s.thread i = .finished r →
      MgrStep s { s with thread := upd s.thread i .idle }

inductive MgrReachable : MgrState → Prop where
  | init : MgrReachable MgrState.init
  | step {s s' : MgrState} : MgrReachable s → MgrStep s s' → MgrReachable s'

/-- The inductive invariant of the manager: every thread executing a
load body holds the future registered for its key and that future is
in the running state; no future has two executors; registered futures
were allocated; unallocated identities carry no future state; a thread
awaiting a still pending future awaits the future registered for its
key; and awaited futures were allocated. -/
structure MgrInv (s : MgrState) : Prop where
  run_reg : ∀ i k f, s.thread i = .runningLoad k f → s.futureOf k = some f
  run_state : ∀ i k f, s.thread i = .runningLoad k f → s.futState f = .runningFut
  run_unique : ∀ i j k k2 f,
    s.thread i = .runningLoad k f → s.thread j = .runningLoad k2 f → i = j
  reg_lt : ∀ k f, s.futureOf k = some f → f < s.nextFut
  unalloc : ∀ f, s.nextFut ≤ f → s.futState f = .noFut
  await_reg : ∀ i k f, s.thread i = .awaiting k f → s.futState f = .pendingFut →
    s.futureOf k = some f
  await_lt : ∀ i k f, s.thread i = .awaiting k f → f < s.nextFut

/-- Example run of the manager: one client walks the load path for
key one up to executing the store load. -/
def mgrExample1 : MgrState :=
  { MgrState.init with thread := upd MgrState.init.thread 0 (.cacheCheck 1) }

def mgrExample2 : MgrState :=
  { mgrExample1 with thread := upd mgrExample1.thread 0 (.readLockHeld 1) }

def mgrExample3 : MgrState :=
  { mgrExample2 with thread := upd mgrExample2.thread 0 (.reloadEntry 1) }

def mgrExample4 : MgrState :=
  { mgrExample3 with
    thread := upd mgrExample3.thread 0 (.awaiting 1 mgrExample3.nextFut),
    futureOf := upd mgrExample3.futureOf 1 (some mgrExample3.nextFut),
    futState := upd mgrExample3.futState mgrExample3.nextFut .pendingFut,
    nextFut := mgrExample3.nextFut + 1 }

def mgrExample5 : MgrState :=
  { mgrExample4 with
    thread := upd mgrExample4.thread 0 (.runningLoad 1 0),
    futState := upd mgrExample4.futState 0 .runningFut }

/-! ## Shared lemmas -/

/-- Pointwise update at the updated index. -/
theorem upd_self {α : Type} (f : Nat → α) (i : Nat) (v : α) : upd f i v i = v := by
  simp [upd]

/-- Pointwise update away from the updated index. -/
theorem upd_ne {α : Type} (f : Nat → α) {i j : Nat} (v : α) (h : j ≠ i) :
    upd f i v j = f j := by
  simp [upd, h]

theorem TV.andTV_eq_t {a b : TV} : TV.andTV a b = .t ↔ (a = .t ∧ b = .t) := by
  cases a <;> cases b <;> simp [TV.andTV]

theorem QB.pushStr_query (b : QB) (s : String) : (b.pushStr s).query = b.query ++ s := rfl

theorem QB.pushStr_values (b : QB) (s : String) : (b.pushStr s).values = b.values := rfl

theorem QB.pushName_query (b : QB) (n : String) :
    (b.pushName n).query = b.query ++ quoteName n := by
  simp [QB.pushName, quoteName, String.append_assoc]

theorem QB.pushName_values (b : QB) (n : String) : (b.pushName n).values = b.values := rfl

theorem QB.pushNames_rest : ∀ (rest : List String) (b : QB),
    rest.foldl (fun b n => (b.pushStr ", ").pushName n) b =
      { query := b.query ++ renderNamesRest rest, values := b.values } := by
  intro rest
  induction rest with
  | nil => intro b; cases b; simp [renderNamesRest]
  | cons n rest ih =>
    intro b
    simp only [List.foldl_cons]
    rw [ih]
    simp only [QB.pushStr, QB.pushName, renderNamesRest, quoteName, String.append_assoc]

theorem QB.pushNames_spec (l : List String) (b : QB) :
    b.pushNames l = { query := b.query ++ renderNames l, values := b.values } := by
  cases l with
  | nil => cases b; simp [QB.pushNames, renderNames]
  | cons c rest =>
    simp only [QB.pushNames, renderNames]
    rw [QB.pushNames_rest]
    simp [QB.pushName, quoteName, String.append_assoc]

/-! ## C8: Null comparisons rewrite to IS NULL tests -/

/-- C8: building an equality whose right-hand side is the Null value
yields an IS NULL predicate whose emission appends IS NULL text and
binds no parameter for the right-hand side, and symmetrically for
inequality and IS NOT NULL; for any non-Null right-hand side the
ordinary comparison is built, emitted with a bound parameter. -/
theorem null_comparison_rewrite (e : Expression) (v : Value) (b : QB) :
    Expression.equal e (.value .null) = .isNull e ∧
    Expression.notEqual e (.value .null) = .isNotNull e ∧
    (Predicate.isNull e).pushInto b =
      { query := (e.writeTo b).query ++ " IS NULL", values := (e.writeTo b).values } ∧
    (Predicate.isNotNull e).pushInto b =
      { query := (e.writeTo b).query ++ " IS NOT NULL", values := (e.writeTo b).values } ∧
    (v ≠ .null →
      Expression.equal e (.value v) = .equal e (.value v) ∧
      Expression.notEqual e (.value v) = .notEqual e (.value v) ∧
      (Predicate.equal e (.value v)).pushInto b =
        { query := (e.writeTo b).query ++ " = " ++ "$" ++
            toString ((e.writeTo b).values.length + 1),
          values := (e.writeTo b).values ++ [v] }) := by
  refine ⟨rfl, rfl, rfl, rfl, fun hv => ⟨?_, ?_, ?_⟩⟩
  · cases v <;> simp_all [Expression.equal]
  · cases v <;> simp_all [Expression.notEqual]
  · simp [Predicate.pushInto, Expression.writeTo, QB.pushStr, QB.pushValue,
      String.append_assoc]

/-- Witness for C8 at a concrete column and value. -/
theorem null_comparison_rewrite_witness :
    (Value.bigInt 42 ≠ Value.null) ∧
    Expression.equal (.column "col") (.value (.bigInt 42)) =
      .equal (.column "col") (.value (.bigInt 42)) :=
  ⟨by decide,
    ((null_comparison_rewrite (.column "col") (.bigInt 42) QB.empty).2.2.2.2
      (by decide)).1⟩

/-! ## C9: Row constructor invariant -/

theorem ColumnIndex.insertCI_new (m : ColumnIndex) (k : String) (v : Nat)
    (h : ∀ p ∈ m, p.1 ≠ k) : m.insertCI k v = m ++ [(k, v)] := by
  have : m.any (fun p => p.1 == k) = false := by
    simp only [List.any_eq_false]
    intro p hp
    simpa using h p hp
  simp [ColumnIndex.insertCI, this]

theorem ColumnIndex.build_length : ∀ (cols : List String) (i : Nat) (m : ColumnIndex),
    cols.Nodup → (∀ c ∈ cols, ∀ p ∈ m, p.1 ≠ c) →
    (ColumnIndex.build cols i m).length = m.length + cols.length := by
  intro cols
  induction cols with
  | nil => intro i m _ _; simp [ColumnIndex.build]
  | cons c rest ih =>
    intro i m hnd hdisj
    simp only [ColumnIndex.build]
    rw [ColumnIndex.insertCI_new m c i (hdisj c (by simp))]
    rw [ih (i + 1) (m ++ [(c, i)]) (List.Nodup.of_cons hnd)]
    · simp [Nat.add_comm, Nat.add_assoc, Nat.add_left_comm]
    · intro c' hc' p hp
      rcases List.mem_append.mp hp with hpm | hpc
      · exact hdisj c' (List.mem_cons_of_mem _ hc') p hpm
      · simp only [List.mem_singleton] at hpc
        subst hpc
        intro hEq
        simp only at hEq
        exact (List.nodup_cons.mp hnd).1 (hEq ▸ hc')

/-- C9 (amended): a Row returned by Row::new always satisfies the
invariant, enforced by its assertion, and a Row built by from_iter
satisfies it whenever the supplied names are pairwise distinct; with
duplicated names from_iter violates it. -/
theorem row_constructor_invariant :
    (∀ (values : List Value) (columns : ColumnIndex) (r : Row),
      Row.new values columns = .ok r → r.invariant) ∧
    (∀ pairs : List (String × Value),
      (pairs.map Prod.fst).Nodup → (Row.fromIter pairs).invariant) := by
  constructor
  · intro values columns r h
    simp only [Row.new] at h
    split at h
    · cases h
      assumption
    · cases h
  · intro pairs hnd
    simp only [Row.fromIter, Row.invariant, ColumnIndex.ofColumns, ColumnIndex.len]
    rw [ColumnIndex.build_length _ 0 [] hnd (by simp)]
    simp

/-- Counterexample for C9 as stated: from_iter with a duplicated name
produces a Row with two values but a single index entry. -/
theorem row_invariant_counterexample :
    ¬ (Row.fromIter [("a", Value.null), ("a", Value.null)]).invariant ∧
    (Row.fromIter [("a", Value.null), ("a", Value.null)]).values.length = 2 ∧
    (Row.fromIter [("a", Value.null), ("a", Value.null)]).columns.len = 1 := by
  refine ⟨?_, ?_, ?_⟩ <;> decide

/-- Witness for C9 at concrete inputs. -/
theorem row_constructor_invariant_witness :
    ((["a", "b"] : List String).Nodup) ∧
    (Row.fromIter [("a", Value.null), ("b", Value.bigInt 1)]).invariant := by
  refine ⟨by decide, ?_⟩
  exact row_constructor_invariant.2 [("a", Value.null), ("b", Value.bigInt 1)] (by decide)

/-! ## C5: Sandbox report decoding and clamping -/

/-- C5: a successful wait report carries the status code on natural
exit and the killing signal number when killed by a signal, and
whenever either measured value exceeds its limit (the cpu measurement
being zero with the controller absent, the wall clock one the elapsed
time) both reported times are clamped to the respective limit plus one
millisecond; otherwise the measured values are returned unchanged. -/
theorem sandbox_report_decode (status : WaitStatus) (elapsed : Nat)
    (config : ProcessConfig) (r : Report) (h : processRunReport status elapsed config = .ok r) :
    (∀ pid code, status = .exited pid code → r.exitCode = code) ∧
    (∀ pid sig cd, status = .signaled pid sig cd → r.exitCode = sig) ∧
    ((0 > config.timeLimit ∨ elapsed > config.realTimeLimit) →
      r.time = config.timeLimit + millisNs ∧ r.realTime = config.realTimeLimit + millisNs) ∧
    (¬ (0 > config.timeLimit ∨ elapsed > config.realTimeLimit) →
      r.time = 0 ∧ r.realTime = elapsed) := by
  cases status with
  | exited pid code =>
    simp only [processRunReport, processRunReport.processRunClamp] at h
    split at h <;> rename_i hcond <;> cases h <;> simp_all
  | signaled pid sig cd =>
    simp only [processRunReport, processRunReport.processRunClamp] at h
    split at h <;> rename_i hcond <;> cases h <;> simp_all
  | stillAlive => cases h
  | otherStatus d => cases h

/-- Witness for C5: a process killed by signal 9 after overshooting a
ten millisecond wall clock limit. -/
theorem sandbox_report_decode_witness :
    processRunReport (.signaled 7 9 false) (20 * millisNs)
      { timeLimit := 5 * millisNs, realTimeLimit := 10 * millisNs } =
      .ok { exitCode := 9, memory := 0, time := 6 * millisNs, realTime := 11 * millisNs } ∧
    (9 : Int) = 9 := by
  refine ⟨by decide, ?_⟩
  exact (sandbox_report_decode (.signaled 7 9 false) (20 * millisNs)
    { timeLimit := 5 * millisNs, realTimeLimit := 10 * millisNs }
    { exitCode := 9, memory := 0, time := 6 * millisNs, realTime := 11 * millisNs }
    (by decide)).2.1 7 9 false rfl

/-! ## C7: mutations on an expired handle fail without effect -/

/-- C7: when the stored mirror of a claimed task has no expire_time or
an expire_time earlier than now, set_status, set_state and ping all
return the task expired error before issuing any database update, and
leave the handle mirrors and the database unchanged. -/
theorem expired_handle_rejects (h : TaskHandle) (db : StoreState Task)
    (status : TaskStatus) (state : String) (duration now : Int)
    (hexp : taskIsExpired h.storedTask now = true) :
    handleSetStatus h db status now = (.err "task expired", (h, db)) ∧
    handleSetState h db state now = (.err "task expired", (h, db)) ∧
    handlePing h db duration now = (.err "task expired", (h, db)) := by
  refine ⟨?_, ?_, ?_⟩ <;>
    simp [handleSetStatus, handleSetState, handlePing, handleUpdate, hexp]

/-- Witness for C7 on a handle whose stored mirror has no expire_time. -/
theorem expired_handle_rejects_witness :
    taskIsExpired ({ id := 1, kind := .judgeSolution, config := "", status := .running,
                     state := "", expireTime := none } : Task) 0 = true ∧
    handlePing
      { task := { id := 1, kind := .judgeSolution, config := "", status := .running,
                  state := "", expireTime := none },
        storedTask := { id := 1, kind := .judgeSolution, config := "", status := .running,
                        state := "", expireTime := none } }
      { rows := [], nextId := 1, events := [], nextEventId := 1 } 30 0 =
      (.err "task expired",
        ({ task := { id := 1, kind := .judgeSolution, config := "", status := .running,
                     state := "", expireTime := none },
           storedTask := { id := 1, kind := .judgeSolution, config := "", status := .running,
                           state := "", expireTime := none } },
         { rows := [], nextId := 1, events := [], nextEventId := 1 })) := by
  refine ⟨by decide, ?_⟩
  exact (expired_handle_rejects _ _ TaskStatus.succeeded "" 30 0 (by decide)).2.2

/-! ## Shared lemmas on the primary key guard -/

theorem matchesRow_and_guard {α : Type} (T : ObjectType α) (oid : Int) (p : Predicate)
    (r : α) (hrow : rowLookup (T.toRow r) "id" = some (.bigInt (T.getId r))) :
    matchesRow T (.and ((Expression.column "id").equal (.value (.bigInt oid))) p) r =
      (decide (T.getId r = oid) && (p.eval (rowLookup (T.toRow r)) == TV.t)) := by
  simp only [matchesRow, Predicate.eval, evalCmp, Expression.eval, hrow]
  by_cases hEq : T.getId r = oid
  · subst hEq
    simp only [Value.eqTV, if_pos rfl]
    cases p.eval (rowLookup (T.toRow r)) <;> simp [TV.andTV]
  · simp only [Value.eqTV, if_neg hEq]
    cases p.eval (rowLookup (T.toRow r)) <;> simp [TV.andTV, hEq]

theorem matchesRow_guard_id {α : Type} (T : ObjectType α) (oid : Int) (p : Predicate)
    (r : α) (hrow : rowLookup (T.toRow r) "id" = some (.bigInt (T.getId r)))
    (h : matchesRow T (.and ((Expression.column "id").equal (.value (.bigInt oid))) p) r
      = true) : T.getId r = oid := by
  rw [matchesRow_and_guard T oid p r hrow] at h
  simp only [Bool.and_eq_true, decide_eq_true_eq] at h
  exact h.1

/-! ## C6: create validates, inserts, and writes the Create event -/

/-- C6 (amended): for an object failing is_valid, create panics through
the assertion, producing no committed state at all, rather than
returning an error value; for a valid object it inserts the row with
the database assigned id obtained via RETURNING, appends a Create
event holding the persisted object, and returns that event. -/
theorem create_validates_and_logs {α : Type} (T : ObjectType α) (s : StoreState α) (o : α) :
    (T.isValid o = false →
      storeCreate T s o = .panicked "assertion failed: object.is_valid()") ∧
    (T.isValid o = true →
      storeCreate T s o = .ok
        ({ id := s.nextEventId, kind := .create, object := T.setId o s.nextId },
         { rows := s.rows ++ [T.setId o s.nextId],
           nextId := s.nextId + 1,
           events := s.events ++
             [{ id := s.nextEventId, kind := .create, object := T.setId o s.nextId }],
           nextEventId := s.nextEventId + 1 })) := by
  constructor
  · intro h
    simp [storeCreate, createObject, h, Outcome.bind]
  · intro h
    simp [storeCreate, createObject, createEvent, h, Outcome.bind]

/-- Counterexample for C6 as stated: creating a Task with an Unknown
kind panics instead of returning an error, so no error value reaches
the caller. -/
theorem create_invalid_counterexample :
    storeCreate taskObjectType { rows := [], nextId := 1, events := [], nextEventId := 1 }
      { id := 0, kind := .unknownTK 5, config := "", status := .queued,
        state := "", expireTime := none } =
      .panicked "assertion failed: object.is_valid()" ∧
    (storeCreate taskObjectType { rows := [], nextId := 1, events := [], nextEventId := 1 }
      { id := 0, kind := .unknownTK 5, config := "", status := .queued,
        state := "", expireTime := none }).isErr = false := by
  exact ⟨rfl, rfl⟩

/-- Witness for C6 on a valid task. -/
theorem create_validates_and_logs_witness :
    taskObjectType.isValid
      { id := 0, kind := .judgeSolution, config := "c", status := .queued,
        state := "s", expireTime := none } = true ∧
    storeCreate taskObjectType { rows := [], nextId := 1, events := [], nextEventId := 1 }
      { id := 0, kind := .judgeSolution, config := "c", status := .queued,
        state := "s", expireTime := none } =
      .ok
        ({ id := 1, kind := .create,
           object := { id := 1, kind := .judgeSolution, config := "c", status := .queued,
                       state := "s", expireTime := none } },
         { rows := [{ id := 1, kind := .judgeSolution, config := "c", status := .queued,
                      state := "s", expireTime := none }],
           nextId := 2,
           events := [{ id := 1, kind := .create,
                        object := { id := 1, kind := .judgeSolution, config := "c",
                                    status := .queued, state := "s", expireTime := none } }],
           nextEventId := 2 }) := by
  refine ⟨by decide, ?_⟩
  exact (create_validates_and_logs taskObjectType
    { rows := [], nextId := 1, events := [], nextEventId := 1 }
    { id := 0, kind := .judgeSolution, config := "c", status := .queued,
      state := "s", expireTime := none }).2 (by decide)

/-! ## C2: update_where updates exactly the guarded row -/

theorem storeUpdateWhere_err {α : Type} (T : ObjectType α) (s : StoreState α) (o : α)
    (p : Predicate) (hvalid : T.isValid o = true)
    (hall : ∀ r ∈ s.rows,
      matchesRow T (.and ((Expression.column "id").equal (.value (.bigInt (T.getId o)))) p)
        r = false) :
    storeUpdateWhere T s o p = .err "empty query result" := by
  have hfil : s.rows.filter
      (matchesRow T (.and ((Expression.column "id").equal
        (.value (.bigInt (T.getId o)))) p)) = [] := by
    rw [List.filter_eq_nil_iff]
    intro a ha
    simp [hall a ha]
  simp [storeUpdateWhere, updateObject, Outcome.bind, hvalid, hfil]

theorem storeUpdateWhere_ok {α : Type} (T : ObjectType α) (s : StoreState α) (o : α)
    (p : Predicate) (hvalid : T.isValid o = true) (pre : List α) (r : α) (post : List α)
    (hrows : s.rows = pre ++ r :: post)
    (hmr : matchesRow T (.and ((Expression.column "id").equal
      (.value (.bigInt (T.getId o)))) p) r = true)
    (hpre : ∀ x ∈ pre, matchesRow T (.and ((Expression.column "id").equal
      (.value (.bigInt (T.getId o)))) p) x = false)
    (hpost : ∀ x ∈ post, matchesRow T (.and ((Expression.column "id").equal
      (.value (.bigInt (T.getId o)))) p) x = false) :
    storeUpdateWhere T s o p = .ok
      ({ id := s.nextEventId, kind := .update, object := T.setId o (T.getId r) },
       { rows := pre ++ T.setId o (T.getId r) :: post,
         nextId := s.nextId,
         events := s.events ++
           [{ id := s.nextEventId, kind := .update, object := T.setId o (T.getId r) }],
         nextEventId := s.nextEventId + 1 }) := by
  have hfil : s.rows.filter
      (matchesRow T (.and ((Expression.column "id").equal
        (.value (.bigInt (T.getId o)))) p)) = [r] := by
    rw [hrows, List.filter_append, List.filter_cons]
    rw [List.filter_eq_nil_iff.mpr (fun a ha => by simp [hpre a ha])]
    rw [List.filter_eq_nil_iff.mpr (fun a ha => by simp [hpost a ha])]
    simp [hmr]
  have hmap : s.rows.map (fun x =>
      if matchesRow T (.and ((Expression.column "id").equal
        (.value (.bigInt (T.getId o)))) p) x then T.setId o (T.getId x) else x) =
      pre ++ T.setId o (T.getId r) :: post := by
    rw [hrows, List.map_append, List.map_cons]
    congr 1
    · conv_rhs => rw [← List.map_id pre]
      exact List.map_congr_left (fun a ha => by simp [hpre a ha])
    · congr 1
      · simp [hmr]
      · conv_rhs => rw [← List.map_id post]
        exact List.map_congr_left (fun a ha => by simp [hpost a ha])
  simp [storeUpdateWhere, updateObject, Outcome.bind, hvalid, hfil, hmap, createEvent]

/-- C2: update_where conjoins the primary key onto the caller
predicate; with pairwise distinct row ids it updates exactly the row
satisfying id equal to the object id together with the predicate,
returns the zero rows affected error when no row satisfies the
conjunction, and on success appends an Update event holding the
persisted object. -/
theorem update_where_exact {α : Type} (T : ObjectType α) (s : StoreState α) (o : α)
    (p : Predicate)
    (hid : ∀ r, rowLookup (T.toRow r) "id" = some (.bigInt (T.getId r)))
    (hvalid : T.isValid o = true)
    (hnodup : (s.rows.map T.getId).Nodup) :
    ((∀ r ∈ s.rows,
        matchesRow T (.and ((Expression.column "id").equal (.value (.bigInt (T.getId o)))) p)
          r = false) →
      storeUpdateWhere T s o p = .err "empty query result") ∧
    (∀ pre r post, s.rows = pre ++ r :: post →
      matchesRow T (.and ((Expression.column "id").equal (.value (.bigInt (T.getId o)))) p)
        r = true →
      storeUpdateWhere T s o p = .ok
        ({ id := s.nextEventId, kind := .update, object := T.setId o (T.getId r) },
         { rows := pre ++ T.setId o (T.getId r) :: post,
           nextId := s.nextId,
           events := s.events ++
             [{ id := s.nextEventId, kind := .update, object := T.setId o (T.getId r) }],
           nextEventId := s.nextEventId + 1 })) := by
  constructor
  · intro hall
    exact storeUpdateWhere_err T s o p hvalid hall
  · intro pre r post hrows hmr
    have hrid : T.getId r = T.getId o :=
      matchesRow_guard_id T (T.getId o) p r (hid r) hmr
    have hother : ∀ x ∈ pre ++ post,
        matchesRow T (.and ((Expression.column "id").equal
          (.value (.bigInt (T.getId o)))) p) x = false := by
      intro x hx
      by_contra hxm
      have hxm2 : matchesRow T (.and ((Expression.column "id").equal
          (.value (.bigInt (T.getId o)))) p) x = true := by
        cases hcase : matchesRow T (.and ((Expression.column "id").equal
            (.value (.bigInt (T.getId o)))) p) x
        · exact absurd hcase hxm
        · rfl
      have hxid : T.getId x = T.getId o :=
        matchesRow_guard_id T (T.getId o) p x (hid x) hxm2
      rw [hrows] at hnodup
      simp only [List.map_append, List.map_cons] at hnodup
      rcases List.nodup_append.mp hnodup with ⟨_, hnd2, hdisj⟩
      rcases List.mem_append.mp hx with hxpre | hxpost
      · exact hdisj (List.mem_map_of_mem T.getId hxpre)
          (by simp [hxid, hrid])
      · have hni := (List.nodup_cons.mp hnd2).1
        exact hni (by
          have hgx : T.getId r = T.getId x := by rw [hrid, hxid]
          exact hgx ▸ List.mem_map_of_mem T.getId hxpost)
    exact storeUpdateWhere_ok T s o p hvalid pre r post hrows hmr
      (fun x hx => hother x (List.mem_append.mpr (Or.inl hx)))
      (fun x hx => hother x (List.mem_append.mpr (Or.inr hx)))

/-- Witness for C2: a fenced status update against a one row table. -/
theorem update_where_exact_witness :
    storeUpdateWhere taskObjectType
      { rows := [{ id := 1, kind := .judgeSolution, config := "", status := .queued,
                   state := "", expireTime := none }],
        nextId := 2, events := [], nextEventId := 1 }
      { id := 1, kind := .judgeSolution, config := "", status := .succeeded,
        state := "", expireTime := none }
      (.bool true) =
      .ok
        ({ id := 1, kind := .update,
           object := { id := 1, kind := .judgeSolution, config := "", status := .succeeded,
                       state := "", expireTime := none } },
         { rows := [{ id := 1, kind := .judgeSolution, config := "", status := .succeeded,
                      state := "", expireTime := none }],
           nextId := 2,
           events := [{ id := 1, kind := .update,
                        object := { id := 1, kind := .judgeSolution, config := "",
                                    status := .succeeded, state := "",
                                    expireTime := none } }],
           nextEventId := 2 }) := by
  exact (update_where_exact taskObjectType
    { rows := [{ id := 1, kind := .judgeSolution, config := "", status := .queued,
                 state := "", expireTime := none }],
      nextId := 2, events := [], nextEventId := 1 }
    { id := 1, kind := .judgeSolution, config := "", status := .succeeded,
      state := "", expireTime := none }
    (.bool true) (fun r => rfl) (by decide) (by decide)).2 []
    { id := 1, kind := .judgeSolution, config := "", status := .queued,
      state := "", expireTime := none } [] rfl (by decide)

/-! ## C4: ordering of emitted SELECT queries -/

theorem Select.intoQuery_orderBy (s : Select) (b : QB) (h : s.orderBy ≠ []) :
    ∃ pre suf, (s.intoQuery b).query = pre ++ " ORDER BY " ++ renderNames s.orderBy ++ suf := by
  have hne : ¬ (s.orderBy.isEmpty = true) := by simpa using h
  simp only [Select.intoQuery, if_neg hne]
  by_cases hl : s.limit > 0
  · rw [if_pos hl]
    refine ⟨(s.predicate.pushInto ((((b.pushStr "SELECT ").pushNames
      s.columns).pushStr " FROM ").pushName s.table |>.pushStr " WHERE ")).query,
      " LIMIT " ++ toString s.limit, ?_⟩
    simp [QB.pushNames_spec, QB.pushStr, String.append_assoc]
  · rw [if_neg hl]
    refine ⟨(s.predicate.pushInto ((((b.pushStr "SELECT ").pushNames
      s.columns).pushStr " FROM ").pushName s.table |>.pushStr " WHERE ")).query,
      "", ?_⟩
    simp [QB.pushNames_spec, QB.pushStr, String.append_assoc]

/-- C4 (amended): queries built through PersistentStore::find always
carry ORDER BY on the primary key column: find overwrites any caller
supplied order_by with the id column, so the emitted SQL is independent
of the caller ordering; only a Select built directly, outside find,
emits the caller supplied ordering. -/
theorem find_orders_by_primary_key (table : String) (columns : List String) (s : Select) :
    (∀ ob, storeFindQuery table columns (s.withOrderBy ob) = storeFindQuery table columns s) ∧
    (∃ pre suf, (storeFindQuery table columns s).query =
        pre ++ " ORDER BY " ++ quoteName "id" ++ suf) ∧
    (∀ b ob, ob ≠ [] → ∃ pre suf, ((s.withOrderBy ob).intoQuery b).query =
        pre ++ " ORDER BY " ++ renderNames ob ++ suf) := by
  refine ⟨fun ob => rfl, ?_, ?_⟩
  · have h := Select.intoQuery_orderBy
      (((s.withTable table).withColumns columns).withOrderBy ["id"]) QB.empty
      (by simp [Select.withOrderBy, Select.withColumns, Select.withTable])
    simpa [storeFindQuery, renderNames, renderNamesRest] using h
  · intro b ob hob
    have h := Select.intoQuery_orderBy (s.withOrderBy ob) b
      (by simpa [Select.withOrderBy] using hob)
    simpa using h

/-- Counterexample for C4 as stated: the caller asks find to order by
the kind column, yet the emitted SQL orders by id; the caller supplied
ordering is not used. -/
theorem find_ignores_caller_order_counterexample :
    (storeFindQuery "solve_task" ["id", "kind"]
      (((Select.new).withWhere (.bool true)).withOrderBy ["kind"])).query =
      "SELECT \"id\", \"kind\" FROM \"solve_task\" WHERE true ORDER BY \"id\"" ∧
    (((Select.new).withWhere (.bool true)).withOrderBy ["kind"]).orderBy = ["kind"] := by
  exact ⟨rfl, rfl⟩

/-- Witness for C4 at a concrete select. -/
theorem find_orders_by_primary_key_witness :
    ((["kind"] : List String) ≠ []) ∧
    (∃ pre suf, (((Select.new).withOrderBy ["kind"]).intoQuery QB.empty).query =
      pre ++ " ORDER BY " ++ renderNames ["kind"] ++ suf) :=
  ⟨by decide,
    (find_orders_by_primary_key "t" ["c"] Select.new).2.2 QB.empty ["kind"] (by decide)⟩

/-! ## C3: upload persists a Pending row, digests arrive at confirm -/

theorem FileObj.rowLookup_id (f : FileObj) :
    rowLookup (fileObjectType.toRow f) "id" = some (.bigInt (fileObjectType.getId f)) := rfl

/-- C3 (amended): after upload returns, the persisted File row is in
Pending with a TTL and its meta holds only the client supplied name and
size: the streamed size, md5 and sha3_224 live solely in the meta of
the in memory model carried by the returned PendingFile, and reach the
database only when confirm issues its fenced update, which also
transitions the row to Available and clears expire_time. -/
theorem upload_meta_persisted_at_confirm (db : StoreState FileObj)
    (infoName : Option String) (infoSize : Option Nat) (key : String) (now : Int)
    (result : UploadResult) (hfresh : ∀ r ∈ db.rows, r.id ≠ db.nextId) :
    fileUpload db infoName infoSize key now result = .ok
      ({ model := { id := db.nextId, status := .pending, expireTime := some (now + 60),
                    path := key,
                    meta := { name := infoName.getD "", size := some result.size,
                              md5 := some result.md5,
                              sha3_224 := some result.sha3_224 } } },
       { rows := db.rows ++
           [{ id := db.nextId, status := .pending, expireTime := some (now + 60),
              path := key,
              meta := { name := infoName.getD "", size := infoSize,
                        md5 := none, sha3_224 := none } }],
         nextId := db.nextId + 1,
         events := db.events ++
           [{ id := db.nextEventId, kind := .create,
              object := { id := db.nextId, status := .pending,
                          expireTime := some (now + 60), path := key,
                          meta := { name := infoName.getD "", size := infoSize,
                                    md5 := none, sha3_224 := none } } }],
         nextEventId := db.nextEventId + 1 }) ∧
    pendingFileConfirm
      { model := { id := db.nextId, status := .pending, expireTime := some (now + 60),
                   path := key,
                   meta := { name := infoName.getD "", size := some result.size,
                             md5 := some result.md5, sha3_224 := some result.sha3_224 } } }
      { rows := db.rows ++
          [{ id := db.nextId, status := .pending, expireTime := some (now + 60),
             path := key,
             meta := { name := infoName.getD "", size := infoSize,
                       md5 := none, sha3_224 := none } }],
        nextId := db.nextId + 1,
        events := db.events ++
          [{ id := db.nextEventId, kind := .create,
             object := { id := db.nextId, status := .pending,
                         expireTime := some (now + 60), path := key,
                         meta := { name := infoName.getD "", size := infoSize,
                                   md5 := none, sha3_224 := none } } }],
        nextEventId := db.nextEventId + 1 } = .ok
      ({ id := db.nextId, status := .available, expireTime := none, path := key,
         meta := { name := infoName.getD "", size := some result.size,
                   md5 := some result.md5, sha3_224 := some result.sha3_224 } },
       { rows := db.rows ++
           [{ id := db.nextId, status := .available, expireTime := none, path := key,
              meta := { name := infoName.getD "", size := some result.size,
                        md5 := some result.md5, sha3_224 := some result.sha3_224 } }],
         nextId := db.nextId + 1,
         events := db.events ++
           [{ id := db.nextEventId, kind := .create,
              object := { id := db.nextId, status := .pending,
                          expireTime := some (now + 60), path := key,
                          meta := { name := infoName.getD "", size := infoSize,
                                    md5 := none, sha3_224 := none } } },
            { id := db.nextEventId + 1, kind := .update,
              object := { id := db.nextId, status := .available, expireTime := none,
                          path := key,
                          meta := { name := infoName.getD "", size := some result.size,
                                    md5 := some result.md5,
                                    sha3_224 := some result.sha3_224 } } }],
         nextEventId := db.nextEventId + 2 }) := by
  constructor
  · simp [fileUpload, storeCreate, createObject, createEvent, Outcome.bind,
      FileObj.isValid, fileObjectType, FileMeta.default]
  · have hok := storeUpdateWhere_ok fileObjectType
      { rows := db.rows ++
          [{ id := db.nextId, status := .pending, expireTime := some (now + 60),
             path := key,
             meta := { name := infoName.getD "", size := infoSize,
                       md5 := none, sha3_224 := none } }],
        nextId := db.nextId + 1,
        events := db.events ++
          [{ id := db.nextEventId, kind := .create,
             object := { id := db.nextId, status := .pending,
                         expireTime := some (now + 60), path := key,
                         meta := { name := infoName.getD "", size := infoSize,
                                   md5 := none, sha3_224 := none } } }],
        nextEventId := db.nextEventId + 1 }
      { id := db.nextId, status := .available, expireTime := none, path := key,
        meta := { name := infoName.getD "", size := some result.size,
                  md5 := some result.md5, sha3_224 := some result.sha3_224 } }
      ((Expression.column "status").equal (.value FileStatus.pending.toValue))
      (by simp [fileObjectType, FileObj.isValid]) db.rows
      { id := db.nextId, status := .pending, expireTime := some (now + 60), path := key,
        meta := { name := infoName.getD "", size := infoSize,
                  md5 := none, sha3_224 := none } }
      [] rfl
      (by
        rw [matchesRow_and_guard fileObjectType _ _ _ (FileObj.rowLookup_id _)]
        simp [fileObjectType, Predicate.eval, evalCmp, Expression.eval, rowLookup,
          FileObj.toRow, FileStatus.toValue, Value.eqTV, Expression.equal])
      (fun x hx => by
        rw [matchesRow_and_guard fileObjectType _ _ _ (FileObj.rowLookup_id _)]
        simp [fileObjectType, hfresh x hx])
      (fun x hx => by cases hx)
    simp only [pendingFileConfirm, Outcome.bind]
    rw [hok]
    simp [fileObjectType]
    omega

/-- Counterexample for C3 as stated: after uploading a five byte blob
the persisted row holds no digests; only the returned handle does. -/
theorem upload_row_digests_counterexample :
    fileUpload { rows := [], nextId := 1, events := [], nextEventId := 1 }
      (some "hello") (some 5) "k0" 0 { size := 5, md5 := "m", sha3_224 := "s" } = .ok
      ({ model := { id := 1, status := .pending, expireTime := some 60, path := "k0",
                    meta := { name := "hello", size := some 5, md5 := some "m",
                              sha3_224 := some "s" } } },
       { rows := [{ id := 1, status := .pending, expireTime := some 60, path := "k0",
                    meta := { name := "hello", size := some 5, md5 := none,
                              sha3_224 := none } }],
         nextId := 2,
         events := [{ id := 1, kind := .create,
                      object := { id := 1, status := .pending, expireTime := some 60,
                                  path := "k0",
                                  meta := { name := "hello", size := some 5, md5 := none,
                                            sha3_224 := none } } }],
         nextEventId := 2 }) := by
  decide

/-- Witness for C3 at concrete inputs. -/
theorem upload_meta_persisted_at_confirm_witness :
    (∀ r ∈ ({ rows := [], nextId := 1, events := [],
              nextEventId := 1 } : StoreState FileObj).rows, r.id ≠ 1) ∧
    fileUpload { rows := [], nextId := 1, events := [], nextEventId := 1 }
      (some "a.txt") none "k1" 10 { size := 3, md5 := "m3", sha3_224 := "s3" } = .ok
      ({ model := { id := 1, status := .pending, expireTime := some 70, path := "k1",
                    meta := { name := "a.txt", size := some 3, md5 := some "m3",
                              sha3_224 := some "s3" } } },
       { rows := [{ id := 1, status := .pending, expireTime := some 70, path := "k1",
                    meta := { name := "a.txt", size := none, md5 := none,
                              sha3_224 := none } }],
         nextId := 2,
         events := [{ id := 1, kind := .create,
                      object := { id := 1, status := .pending, expireTime := some 70,
                                  path := "k1",
                                  meta := { name := "a.txt", size := none, md5 := none,
                                            sha3_224 := none } } }],
         nextEventId := 2 }) := by
  refine ⟨by simp, ?_⟩
  exact (upload_meta_persisted_at_confirm
    { rows := [], nextId := 1, events := [], nextEventId := 1 }
    (some "a.txt") none "k1" 10 { size := 3, md5 := "m3", sha3_224 := "s3" }
    (by simp)).1

/-! ## C1: take_task candidate loop and fence failure -/

/-- C1 (amended): take_task returns None exactly when the candidate
loop over the up to five selected Queued rows finds no task of known
kind; the loop skips only Unknown kinds.  When the fenced update on the
chosen candidate affects zero rows because a concurrent worker changed
the row, take_task propagates the error instead of continuing with the
next candidate. -/
theorem take_task_fence_failure (snapshot current : StoreState Task) (now lease : Int) :
    (firstKnownKind (findRows taskObjectType snapshot
        ((Expression.column "status").equal (.value TaskStatus.queued.toValue)) 5) = none →
      takeTask snapshot current now lease = .ok (none, current)) ∧
    (∀ t e, firstKnownKind (findRows taskObjectType snapshot
        ((Expression.column "status").equal (.value TaskStatus.queued.toValue)) 5) = some t →
      storeUpdateWhere taskObjectType current
        { t with status := .running, expireTime := some (now + lease) }
        (taskFence t) = .err e →
      takeTask snapshot current now lease = .err e) ∧
    (∀ s2, takeTask snapshot current now lease = .ok (none, s2) →
      firstKnownKind (findRows taskObjectType snapshot
        ((Expression.column "status").equal (.value TaskStatus.queued.toValue)) 5) = none ∧
      s2 = current) := by
  refine ⟨?_, ?_, ?_⟩
  · intro h
    simp [takeTask, h]
  · intro t e ht hu
    simp [takeTask, ht, hu, Outcome.bind]
  · intro s2 h
    cases hk : firstKnownKind (findRows taskObjectType snapshot
        ((Expression.column "status").equal (.value TaskStatus.queued.toValue)) 5) with
    | none =>
      simp only [takeTask, hk] at h
      cases h
      exact ⟨rfl, rfl⟩
    | some t =>
      simp only [takeTask, hk] at h
      cases hu : storeUpdateWhere taskObjectType current
          { t with status := .running, expireTime := some (now + lease) }
          (taskFence t) with
      | ok v => rw [hu] at h; cases h
      | err e => rw [hu] at h; cases h
      | panicked e => rw [hu] at h; cases h

/-- Counterexample for C1 as stated: two Queued tasks; a concurrent
worker has claimed the first one between the snapshot read and the
fenced update.  take_task returns the zero rows affected error even
though the second Queued task with a known kind remains available. -/
theorem take_task_error_counterexample :
    takeTask
      { rows := [{ id := 1, kind := .judgeSolution, config := "", status := .queued,
                   state := "", expireTime := none },
                 { id := 2, kind := .judgeSolution, config := "", status := .queued,
                   state := "", expireTime := none }],
        nextId := 3, events := [], nextEventId := 1 }
      { rows := [{ id := 1, kind := .judgeSolution, config := "", status := .running,
                   state := "", expireTime := some 100 },
                 { id := 2, kind := .judgeSolution, config := "", status := .queued,
                   state := "", expireTime := none }],
        nextId := 3, events := [], nextEventId := 1 }
      10 30 = .err "empty query result" ∧
    ({ id := 2, kind := .judgeSolution, config := "", status := .queued,
       state := "", expireTime := none } : Task) ∈
      ({ rows := [{ id := 1, kind := .judgeSolution, config := "", status := .running,
                    state := "", expireTime := some 100 },
                  { id := 2, kind := .judgeSolution, config := "", status := .queued,
                    state := "", expireTime := none }],
         nextId := 3, events := [], nextEventId := 1 } : StoreState Task).rows := by
  refine ⟨by decide, by decide⟩

/-- Witness for C1 on an empty queue. -/
theorem take_task_fence_failure_witness :
    takeTask ({ rows := [], nextId := 1, events := [], nextEventId := 1 } : StoreState Task)
      { rows := [], nextId := 1, events := [], nextEventId := 1 } 0 30 =
      .ok (none, { rows := [], nextId := 1, events := [], nextEventId := 1 }) := by
  exact (take_task_fence_failure
    { rows := [], nextId := 1, events := [], nextEventId := 1 }
    { rows := [], nextId := 1, events := [], nextEventId := 1 } 0 30).1 (by decide)

/-! ## C10: single flight loading in the cache manager -/

theorem MgrInv.threadOnly (s : MgrState) (i0 : Nat) (v : ThreadState) (h : MgrInv s)
    (hrun : ∀ k f, v ≠ .runningLoad k f)
    (hawait : ∀ k f, v = .awaiting k f →
      (s.futState f = .pendingFut → s.futureOf k = some f) ∧ f < s.nextFut) :
    MgrInv { s with thread := upd s.thread i0 v } := by
  refine ⟨?_, ?_, ?_, ?_, ?_, ?_, ?_⟩
  · intro i k f hi
    have hi2 : upd s.thread i0 v i = .runningLoad k f := hi
    by_cases hii : i = i0
    · subst hii; rw [upd_self] at hi2; exact absurd hi2 (hrun k f)
    · rw [upd_ne _ _ hii] at hi2; exact h.run_reg i k f hi2
  · intro i k f hi
    have hi2 : upd s.thread i0 v i = .runningLoad k f := hi
    by_cases hii : i = i0
    · subst hii; rw [upd_self] at hi2; exact absurd hi2 (hrun k f)
    · rw [upd_ne _ _ hii] at hi2; exact h.run_state i k f hi2
  · intro i j k k2 f hi hj
    have hi2 : upd s.thread i0 v i = .runningLoad k f := hi
    have hj2 : upd s.thread i0 v j = .runningLoad k2 f := hj
    by_cases hii : i = i0
    · subst hii; rw [upd_self] at hi2; exact absurd hi2 (hrun k f)
    · by_cases hjj : j = i0
      · subst hjj; rw [upd_self] at hj2; exact absurd hj2 (hrun k2 f)
      · rw [upd_ne _ _ hii] at hi2
        rw [upd_ne _ _ hjj] at hj2
        exact h.run_unique i j k k2 f hi2 hj2
  · exact h.reg_lt
  · exact h.unalloc
  · intro i k f hi hpend
    have hi2 : upd s.thread i0 v i = .awaiting k f := hi
    by_cases hii : i = i0
    · subst hii; rw [upd_self] at hi2; exact (hawait k f hi2).1 hpend
    · rw [upd_ne _ _ hii] at hi2; exact h.await_reg i k f hi2 hpend
  · intro i k f hi
    have hi2 : upd s.thread i0 v i = .awaiting k f := hi
    by_cases hii : i = i0
    · subst hii; rw [upd_self] at hi2; exact (hawait k f hi2).2
    · rw [upd_ne _ _ hii] at hi2; exact h.await_lt i k f hi2

theorem mgrInv_step {s s2 : MgrState} (h : MgrInv s) (hstep : MgrStep s s2) : MgrInv s2 := by
  cases hstep with
  | callLoad i k hthread =>
    exact h.threadOnly s i (.cacheCheck k) (fun k2 f2 hv => by cases hv)
      (fun k2 f2 hv => by cases hv)
  | callReload i k hthread =>
    exact h.threadOnly s i (.reloadEntry k) (fun k2 f2 hv => by cases hv)
      (fun k2 f2 hv => by cases hv)
  | cacheHitFast i k hthread hc =>
    exact h.threadOnly s i (.finished true) (fun k2 f2 hv => by cases hv)
      (fun k2 f2 hv => by cases hv)
  | cacheMissFast i k hthread hc =>
    exact h.threadOnly s i (.readLockHeld k) (fun k2 f2 hv => by cases hv)
      (fun k2 f2 hv => by cases hv)
  | cacheHitLocked i k hthread hc =>
    exact h.threadOnly s i (.finished true) (fun k2 f2 hv => by cases hv)
      (fun k2 f2 hv => by cases hv)
  | foundFuture i k f hthread hc hfut =>
    refine h.threadOnly s i (.awaiting k f) (fun k2 f2 hv => by cases hv)
      (fun k2 f2 hv => ?_)
    cases hv
    exact ⟨fun _ => hfut, h.reg_lt k f hfut⟩
  | noFuture i k hthread hc hfut =>
    exact h.threadOnly s i (.reloadEntry k) (fun k2 f2 hv => by cases hv)
      (fun k2 f2 hv => by cases hv)
  | reloadFound i k f hthread hfut =>
    refine h.threadOnly s i (.awaiting k f) (fun k2 f2 hv => by cases hv)
      (fun k2 f2 hv => ?_)
    cases hv
    exact ⟨fun _ => hfut, h.reg_lt k f hfut⟩
  | awaitDone i k f r hthread hdone =>
    exact h.threadOnly s i (.finished r) (fun k2 f2 hv => by cases hv)
      (fun k2 f2 hv => by cases hv)
  | retire i r hthread =>
    exact h.threadOnly s i .idle (fun k2 f2 hv => by cases hv)
      (fun k2 f2 hv => by cases hv)
  | evict k =>
    exact ⟨h.run_reg, h.run_state, h.run_unique, h.reg_lt, h.unalloc,
      h.await_reg, h.await_lt⟩
  | reloadCreate i k hthread hfut =>
    refine ⟨?_, ?_, ?_, ?_, ?_, ?_, ?_⟩
    · intro j k2 f2 hj
      have hj2 : upd s.thread i (.awaiting k s.nextFut) j = .runningLoad k2 f2 := hj
      by_cases hji : j = i
      · subst hji; rw [upd_self] at hj2; cases hj2
      · rw [upd_ne _ _ hji] at hj2
        have hreg := h.run_reg j k2 f2 hj2
        show upd s.futureOf k (some s.nextFut) k2 = some f2
        by_cases hk : k2 = k
        · subst hk; rw [hreg] at hfut; cases hfut
        · rw [upd_ne _ _ hk]; exact hreg
    · intro j k2 f2 hj
      have hj2 : upd s.thread i (.awaiting k s.nextFut) j = .runningLoad k2 f2 := hj
      by_cases hji : j = i
      · subst hji; rw [upd_self] at hj2; cases hj2
      · rw [upd_ne _ _ hji] at hj2
        have hst := h.run_state j k2 f2 hj2
        show upd s.futState s.nextFut .pendingFut f2 = .runningFut
        by_cases hf : f2 = s.nextFut
        · rw [hf] at hst
          rw [h.unalloc s.nextFut (Nat.le_refl s.nextFut)] at hst
          simp at hst
        · rw [upd_ne _ _ hf]; exact hst
    · intro j1 j2 k1 k2 f2 hj1 hj2
      have hj12 : upd s.thread i (.awaiting k s.nextFut) j1 = .runningLoad k1 f2 := hj1
      have hj22 : upd s.thread i (.awaiting k s.nextFut) j2 = .runningLoad k2 f2 := hj2
      by_cases h1 : j1 = i
      · subst h1; rw [upd_self] at hj12; cases hj12
      · by_cases h2 : j2 = i
        · subst h2; rw [upd_self] at hj22; cases hj22
        · rw [upd_ne _ _ h1] at hj12
          rw [upd_ne _ _ h2] at hj22
          exact h.run_unique j1 j2 k1 k2 f2 hj12 hj22
    · intro k2 f2 hk2
      have hk22 : upd s.futureOf k (some s.nextFut) k2 = some f2 := hk2
      show f2 < s.nextFut + 1
      by_cases hk : k2 = k
      · subst hk; rw [upd_self] at hk22
        injection hk22 with hh
        omega
      · rw [upd_ne _ _ hk] at hk22
        have := h.reg_lt k2 f2 hk22
        omega
    · intro f2 hf2
      have hge : s.nextFut + 1 ≤ f2 := hf2
      show upd s.futState s.nextFut .pendingFut f2 = .noFut
      have hne : f2 ≠ s.nextFut := by omega
      rw [upd_ne _ _ hne]
      exact h.unalloc f2 (by omega)
    · intro j k2 f2 hj hpend
      have hj2 : upd s.thread i (.awaiting k s.nextFut) j = .awaiting k2 f2 := hj
      by_cases hji : j = i
      · subst hji; rw [upd_self] at hj2
        injection hj2 with hk2 hf2
        show upd s.futureOf k (some s.nextFut) k2 = some f2
        rw [← hk2, ← hf2, upd_self]
      · rw [upd_ne _ _ hji] at hj2
        have hlt := h.await_lt j k2 f2 hj2
        have hne : f2 ≠ s.nextFut := by omega
        have hpend2 : upd s.futState s.nextFut .pendingFut f2 = .pendingFut := hpend
        rw [upd_ne _ _ hne] at hpend2
        have hreg := h.await_reg j k2 f2 hj2 hpend2
        show upd s.futureOf k (some s.nextFut) k2 = some f2
        by_cases hk : k2 = k
        · subst hk; rw [hreg] at hfut; cases hfut
        · rw [upd_ne _ _ hk]; exact hreg
    · intro j k2 f2 hj
      have hj2 : upd s.thread i (.awaiting k s.nextFut) j = .awaiting k2 f2 := hj
      show f2 < s.nextFut + 1
      by_cases hji : j = i
      · subst hji; rw [upd_self] at hj2
        injection hj2 with hk2 hf2
        omega
      · rw [upd_ne _ _ hji] at hj2
        have := h.await_lt j k2 f2 hj2
        omega
  | startRun i k f hthread hpend =>
    have hreg : s.futureOf k = some f := h.await_reg i k f hthread hpend
    have hflt : f < s.nextFut := h.await_lt i k f hthread
    refine ⟨?_, ?_, ?_, ?_, ?_, ?_, ?_⟩
    · intro j k2 f2 hj
      have hj2 : upd s.thread i (.runningLoad k f) j = .runningLoad k2 f2 := hj
      by_cases hji : j = i
      · subst hji; rw [upd_self] at hj2
        injection hj2 with hk2 hf2
        show s.futureOf k2 = some f2
        rw [← hk2, ← hf2]
        exact hreg
      · rw [upd_ne _ _ hji] at hj2
        exact h.run_reg j k2 f2 hj2
    · intro j k2 f2 hj
      have hj2 : upd s.thread i (.runningLoad k f) j = .runningLoad k2 f2 := hj
      show upd s.futState f .runningFut f2 = .runningFut
      by_cases hji : j = i
      · subst hji; rw [upd_self] at hj2
        injection hj2 with hk2 hf2
        rw [← hf2, upd_self]
      · rw [upd_ne _ _ hji] at hj2
        have hst := h.run_state j k2 f2 hj2
        by_cases hf2 : f2 = f
        · subst hf2; rw [hpend] at hst; simp at hst
        · rw [upd_ne _ _ hf2]; exact hst
    · intro j1 j2 k1 k2 f2 hj1 hj2
      have hj12 : upd s.thread i (.runningLoad k f) j1 = .runningLoad k1 f2 := hj1
      have hj22 : upd s.thread i (.runningLoad k f) j2 = .runningLoad k2 f2 := hj2
      by_cases h1 : j1 = i <;> by_cases h2 : j2 = i
      · subst h1; subst h2; rfl
      · subst h1; rw [upd_self] at hj12
        injection hj12 with hk1 hf1
        rw [upd_ne _ _ h2] at hj22
        rw [← hf1] at hj22
        have hbad := h.run_state j2 k2 f hj22
        rw [hpend] at hbad
        simp at hbad
      · subst h2; rw [upd_self] at hj22
        injection hj22 with hk2 hf2
        rw [upd_ne _ _ h1] at hj12
        rw [← hf2] at hj12
        have hbad := h.run_state j1 k1 f hj12
        rw [hpend] at hbad
        simp at hbad
      · rw [upd_ne _ _ h1] at hj12
        rw [upd_ne _ _ h2] at hj22
        exact h.run_unique j1 j2 k1 k2 f2 hj12 hj22
    · exact h.reg_lt
    · intro f2 hf2
      have hge : s.nextFut ≤ f2 := hf2
      show upd s.futState f .runningFut f2 = .noFut
      have hne : f2 ≠ f := by omega
      rw [upd_ne _ _ hne]
      exact h.unalloc f2 hge
    · intro j k2 f2 hj hpend2
      have hj2 : upd s.thread i (.runningLoad k f) j = .awaiting k2 f2 := hj
      by_cases hji : j = i
      · subst hji; rw [upd_self] at hj2; cases hj2
      · rw [upd_ne _ _ hji] at hj2
        have hpend3 : upd s.futState f .runningFut f2 = .pendingFut := hpend2
        by_cases hf2 : f2 = f
        · subst hf2; rw [upd_self] at hpend3; cases hpend3
        · rw [upd_ne _ _ hf2] at hpend3
          exact h.await_reg j k2 f2 hj2 hpend3
    · intro j k2 f2 hj
      have hj2 : upd s.thread i (.runningLoad k f) j = .awaiting k2 f2 := hj
      by_cases hji : j = i
      · subst hji; rw [upd_self] at hj2; cases hj2
      · rw [upd_ne _ _ hji] at hj2
        exact h.await_lt j k2 f2 hj2
  | finishRun i k f r hthread =>
    have hreg : s.futureOf k = some f := h.run_reg i k f hthread
    have hflt : f < s.nextFut := h.reg_lt k f hreg
    refine ⟨?_, ?_, ?_, ?_, ?_, ?_, ?_⟩
    · intro j k2 f2 hj
      have hj2 : upd s.thread i (.finished r) j = .runningLoad k2 f2 := hj
      by_cases hji : j = i
      · subst hji; rw [upd_self] at hj2; cases hj2
      · rw [upd_ne _ _ hji] at hj2
        have hreg2 := h.run_reg j k2 f2 hj2
        show upd s.futureOf k none k2 = some f2
        by_cases hk : k2 = k
        · rw [hk] at hreg2
          rw [hreg] at hreg2
          injection hreg2 with hf2
          rw [← hf2] at hj2
          exact absurd (h.run_unique j i k2 k f hj2 hthread) hji
        · rw [upd_ne _ _ hk]; exact hreg2
    · intro j k2 f2 hj
      have hj2 : upd s.thread i (.finished r) j = .runningLoad k2 f2 := hj
      by_cases hji : j = i
      · subst hji; rw [upd_self] at hj2; cases hj2
      · rw [upd_ne _ _ hji] at hj2
        have hst := h.run_state j k2 f2 hj2
        show upd s.futState f (.doneFut r) f2 = .runningFut
        by_cases hf2 : f2 = f
        · rw [hf2] at hj2
          exact absurd (h.run_unique j i k2 k f hj2 hthread) hji
        · rw [upd_ne _ _ hf2]; exact hst
    · intro j1 j2 k1 k2 f2 hj1 hj2
      have hj12 : upd s.thread i (.finished r) j1 = .runningLoad k1 f2 := hj1
      have hj22 : upd s.thread i (.finished r) j2 = .runningLoad k2 f2 := hj2
      by_cases h1 : j1 = i
      · subst h1; rw [upd_self] at hj12; cases hj12
      · by_cases h2 : j2 = i
        · subst h2; rw [upd_self] at hj22; cases hj22
        · rw [upd_ne _ _ h1] at hj12
          rw [upd_ne _ _ h2] at hj22
          exact h.run_unique j1 j2 k1 k2 f2 hj12 hj22
    · intro k2 f2 hk2
      have hk22 : upd s.futureOf k none k2 = some f2 := hk2
      show f2 < s.nextFut
      by_cases hk : k2 = k
      · subst hk; rw [upd_self] at hk22; cases hk22
      · rw [upd_ne _ _ hk] at hk22
        exact h.reg_lt k2 f2 hk22
    · intro f2 hf2
      have hge : s.nextFut ≤ f2 := hf2
      show upd s.futState f (.doneFut r) f2 = .noFut
      have hne : f2 ≠ f := by omega
      rw [upd_ne _ _ hne]
      exact h.unalloc f2 hge
    · intro j k2 f2 hj hpend2
      have hj2 : upd s.thread i (.finished r) j = .awaiting k2 f2 := hj
      by_cases hji : j = i
      · subst hji; rw [upd_self] at hj2; cases hj2
      · rw [upd_ne _ _ hji] at hj2
        have hpend3 : upd s.futState f (.doneFut r) f2 = .pendingFut := hpend2
        by_cases hf2 : f2 = f
        · subst hf2; rw [upd_self] at hpend3; cases hpend3
        · rw [upd_ne _ _ hf2] at hpend3
          have hreg2 := h.await_reg j k2 f2 hj2 hpend3
          show upd s.futureOf k none k2 = some f2
          by_cases hk : k2 = k
          · rw [hk] at hreg2
            rw [hreg] at hreg2
            injection hreg2 with hf3
            exact absurd hf3.symm hf2
          · rw [upd_ne _ _ hk]; exact hreg2
    · intro j k2 f2 hj
      have hj2 : upd s.thread i (.finished r) j = .awaiting k2 f2 := hj
      by_cases hji : j = i
      · subst hji; rw [upd_self] at hj2; cases hj2
      · rw [upd_ne _ _ hji] at hj2
        exact h.await_lt j k2 f2 hj2

theorem mgrReachable_inv {s : MgrState} (h : MgrReachable s) : MgrInv s := by
  induction h with
  | init =>
    refine ⟨?_, ?_, ?_, ?_, ?_, ?_, ?_⟩ <;> intros <;> simp_all [MgrState.init]
  | step hr hstep ih => exact mgrInv_step ih hstep

/-- C10: in every reachable manager state, at most one store load per
key is in flight, because concurrent load calls for the same key share
the single future registered in the in flight map; and a waiter that
completes through a shared future receives exactly the result that
future resolved with. -/
theorem single_flight_load (s : MgrState) (h : MgrReachable s) :
    (∀ i j k f g, s.thread i = .runningLoad k f → s.thread j = .runningLoad k g → i = j) ∧
    (∀ s2 i k f r, MgrStep s s2 → s.thread i = .awaiting k f →
      s2.thread i = .finished r → s.futState f = .doneFut r) := by
  have inv := mgrReachable_inv h
  constructor
  · intro i j k f g hi hj
    have r1 := inv.run_reg i k f hi
    have r2 := inv.run_reg j k g hj
    rw [r1] at r2
    injection r2 with hfg
    rw [hfg] at hi
    exact inv.run_unique i j k k g hi hj
  · intro s2 i k f r hstep hawait hfin
    cases hstep with
    | callLoad i0 k0 hthread =>
      by_cases hii : i = i0
      · have hfin2 : upd s.thread i0 (.cacheCheck k0) i = .finished r := hfin
        rw [hii, upd_self] at hfin2
        cases hfin2
      · have hfin2 : upd s.thread i0 (.cacheCheck k0) i = .finished r := hfin
        rw [upd_ne _ _ hii, hawait] at hfin2
        cases hfin2
    | callReload i0 k0 hthread =>
      by_cases hii : i = i0
      · have hfin2 : upd s.thread i0 (.reloadEntry k0) i = .finished r := hfin
        rw [hii, upd_self] at hfin2
        cases hfin2
      · have hfin2 : upd s.thread i0 (.reloadEntry k0) i = .finished r := hfin
        rw [upd_ne _ _ hii, hawait] at hfin2
        cases hfin2
    | cacheHitFast i0 k0 hthread hc =>
      by_cases hii : i = i0
      · rw [← hii, hawait] at hthread
        cases hthread
      · have hfin2 : upd s.thread i0 (.finished true) i = .finished r := hfin
        rw [upd_ne _ _ hii, hawait] at hfin2
        cases hfin2
    | cacheMissFast i0 k0 hthread hc =>
      by_cases hii : i = i0
      · have hfin2 : upd s.thread i0 (.readLockHeld k0) i = .finished r := hfin
        rw [hii, upd_self] at hfin2
        cases hfin2
      · have hfin2 : upd s.thread i0 (.readLockHeld k0) i = .finished r := hfin
        rw [upd_ne _ _ hii, hawait] at hfin2
        cases hfin2
    | cacheHitLocked i0 k0 hthread hc =>
      by_cases hii : i = i0
      · rw [← hii, hawait] at hthread
        cases hthread
      · have hfin2 : upd s.thread i0 (.finished true) i = .finished r := hfin
        rw [upd_ne _ _ hii, hawait] at hfin2
        cases hfin2
    | foundFuture i0 k0 f0 hthread hc hfut =>
      by_cases hii : i = i0
      · have hfin2 : upd s.thread i0 (.awaiting k0 f0) i = .finished r := hfin
        rw [hii, upd_self] at hfin2
        cases hfin2
      · have hfin2 : upd s.thread i0 (.awaiting k0 f0) i = .finished r := hfin
        rw [upd_ne _ _ hii, hawait] at hfin2
        cases hfin2
    | noFuture i0 k0 hthread hc hfut =>
      by_cases hii : i = i0
      · have hfin2 : upd s.thread i0 (.reloadEntry k0) i = .finished r := hfin
        rw [hii, upd_self] at hfin2
        cases hfin2
      · have hfin2 : upd s.thread i0 (.reloadEntry k0) i = .finished r := hfin
        rw [upd_ne _ _ hii, hawait] at hfin2
        cases hfin2
    | reloadFound i0 k0 f0 hthread hfut =>
      by_cases hii : i = i0
      · have hfin2 : upd s.thread i0 (.awaiting k0 f0) i = .finished r := hfin
        rw [hii, upd_self] at hfin2
        cases hfin2
      · have hfin2 : upd s.thread i0 (.awaiting k0 f0) i = .finished r := hfin
        rw [upd_ne _ _ hii, hawait] at hfin2
        cases hfin2
    | reloadCreate i0 k0 hthread hfut =>
      by_cases hii : i = i0
      · have hfin2 : upd s.thread i0 (.awaiting k0 s.nextFut) i = .finished r := hfin
        rw [hii, upd_self] at hfin2
        cases hfin2
      · have hfin2 : upd s.thread i0 (.awaiting k0 s.nextFut) i = .finished r := hfin
        rw [upd_ne _ _ hii, hawait] at hfin2
        cases hfin2
    | startRun i0 k0 f0 hthread hpend =>
      by_cases hii : i = i0
      · have hfin2 : upd s.thread i0 (.runningLoad k0 f0) i = .finished r := hfin
        rw [hii, upd_self] at hfin2
        cases hfin2
      · have hfin2 : upd s.thread i0 (.runningLoad k0 f0) i = .finished r := hfin
        rw [upd_ne _ _ hii, hawait] at hfin2
        cases hfin2
    | awaitDone i0 k0 f0 r0 hthread hdone =>
      by_cases hii : i = i0
      · rw [← hii] at hthread
        rw [hawait] at hthread
        injection hthread with hk0 hf0
        have hfin2 : upd s.thread i0 (.finished r0) i = .finished r := hfin
        rw [hii, upd_self] at hfin2
        injection hfin2 with hr0
        rw [hf0, ← hr0]
        exact hdone
      · have hfin2 : upd s.thread i0 (.finished r0) i = .finished r := hfin
        rw [upd_ne _ _ hii, hawait] at hfin2
        cases hfin2
    | finishRun i0 k0 f0 r0 hthread =>
      by_cases hii : i = i0
      · rw [← hii, hawait] at hthread
        cases hthread
      · have hfin2 : upd s.thread i0 (.finished r0) i = .finished r := hfin
        rw [upd_ne _ _ hii, hawait] at hfin2
        cases hfin2
    | evict k0 =>
      have hfin2 : s.thread i = .finished r := hfin
      rw [hawait] at hfin2
      cases hfin2
    | retire i0 r0 hthread =>
      by_cases hii : i = i0
      · have hfin2 : upd s.thread i0 .idle i = .finished r := hfin
        rw [hii, upd_self] at hfin2
        cases hfin2
      · have hfin2 : upd s.thread i0 .idle i = .finished r := hfin
        rw [upd_ne _ _ hii, hawait] at hfin2
        cases hfin2

/-- Witness for C10 at a concrete reachable state holding one running
load for key one. -/
theorem single_flight_load_witness :
    mgrExample5.thread 0 = ThreadState.runningLoad 1 0 ∧ (0 : Nat) = 0 := by
  have h1 : MgrReachable mgrExample1 :=
    .step .init (.callLoad MgrState.init 0 1 rfl)
  have h2 : MgrReachable mgrExample2 :=
    .step h1 (.cacheMissFast mgrExample1 0 1 (by decide) (by decide))
  have h3 : MgrReachable mgrExample3 :=
    .step h2 (.noFuture mgrExample2 0 1 (by decide) (by decide) (by decide))
  have h4 : MgrReachable mgrExample4 :=
    .step h3 (.reloadCreate mgrExample3 0 1 (by decide) (by decide))
  have h5 : MgrReachable mgrExample5 :=
    .step h4 (.startRun mgrExample4 0 1 0 (by decide) (by decide))
  exact ⟨by decide,
    (single_flight_load mgrExample5 h5).1 0 0 1 0 0 (by decide) (by decide)⟩

end SolveSpec
